import Mathlib

/-!
# Verification of the Broadcast Timeline Assembly engine (live-news-break)

Shallow embedding of the timeline-mixing core of `src/main.py` and of the
loudness-analysis front end of `src/replaygain/main.py`, together with
theorems settling the frozen claims about them.

Audio is handled by the pydub collaborator in the source.  We model an
`AudioSegment` as a list of rational samples, one sample per millisecond, so
that `len(audio)` (pydub: duration in ms) is `List.length`.  The pydub
operations used by the source are modelled by their documented contracts:
`a + b` is concatenation, `AudioSegment.silent(d)` is `d` zero samples,
`a.overlay(b, position=p)` adds `b` onto `a` starting at position `p` and
never extends `a`, `a[k:]` is `List.drop k`, `apply_gain` multiplies every
sample by the (linear) gain factor, and `fade_in` / `fade_out` apply a
per-sample envelope that preserves length.
-/

namespace NewsBreak

/-- A decoded audio clip: one rational sample per millisecond. -/
abbrev AudioSeg := List ℚ

/-- pydub `AudioSegment.silent(duration=n)`: `n` ms of silence. -/
def silent (n : ℕ) : AudioSeg := List.replicate n 0

/-- pydub `a.overlay(b, position=p)`: add `b` onto `a` starting at ms `p`;
the result always has the length of `a` (overlay never extends). -/
def overlay (a b : AudioSeg) (pos : ℕ) : AudioSeg :=
  a.enum.map fun q =>
    if pos ≤ q.1 ∧ q.1 < pos + b.length then q.2 + b.getD (q.1 - pos) 0 else q.2

/-- pydub `apply_gain`: per-sample gain (linear-factor model of the dB gain). -/
def apply_gain (factor : ℚ) (a : AudioSeg) : AudioSeg := a.map (factor * ·)

/-- pydub `fade_in(d)`: ramp envelope over the first `d` ms (linear model of
the fade shape); preserves length. -/
def fade_in (d : ℕ) (a : AudioSeg) : AudioSeg :=
  a.enum.map fun q => if q.1 < d then ((q.1 + 1 : ℚ) / d) * q.2 else q.2

/-- pydub `fade_out(d)`: ramp envelope over the last `d` ms (linear model of
the fade shape); preserves length. -/
def fade_out (d : ℕ) (a : AudioSeg) : AudioSeg :=
  a.enum.map fun q =>
    if a.length - d ≤ q.1 then ((a.length - q.1 : ℚ) / d) * q.2 else q.2

@[simp] theorem length_silent (n : ℕ) : (silent n).length = n := by
  simp [silent]

@[simp] theorem length_overlay (a b : AudioSeg) (pos : ℕ) :
    (overlay a b pos).length = a.length := by
  simp [overlay]

@[simp] theorem length_apply_gain (f : ℚ) (a : AudioSeg) :
    (apply_gain f a).length = a.length := by
  simp [apply_gain]

@[simp] theorem length_fade_in (d : ℕ) (a : AudioSeg) :
    (fade_in d a).length = a.length := by
  simp [fade_in]

@[simp] theorem length_fade_out (d : ℕ) (a : AudioSeg) :
    (fade_out d a).length = a.length := by
  simp [fade_out]

/-- The timing value configured for an SFX cue (`NEWS_READER_TIMING_*`):
either the sentinel string `"none"` or a non-negative millisecond offset
(`int(timing)` in the source, applied to the configured non-negative value). -/
inductive Timing where
  | noOffset : Timing
  | offset (ms : ℕ) : Timing
deriving DecidableEq

/-- `generate_mixed_audio_and_track_timestamps` (src/main.py:330-363): mix a
cue SFX clip with the paired narration at the configured timing, returning
the combined clip and the narration start time in seconds
(`speech_start_time / 1000`).  `startOffset` is the caller's timeline cursor
in milliseconds (`total_elapsed_time * 1000`). -/
def generate_mixed_audio_and_track_timestamps
    (sfx_audio speech_audio : AudioSeg) (timing : Timing) (start_offset : ℚ) :
    AudioSeg × ℚ :=
  match timing with
  | .offset timing_offset =>
    let sfx_duration := sfx_audio.length
    let speech_duration := speech_audio.length
    if timing_offset > sfx_duration then
      let padding := timing_offset - sfx_duration
      (sfx_audio ++ silent padding ++ speech_audio,
        (start_offset + sfx_duration + padding) / 1000)
    else
      let overlaid := overlay sfx_audio speech_audio timing_offset
      let combined :=
        if timing_offset + speech_duration > sfx_duration then
          overlaid ++ speech_audio.drop (sfx_duration - timing_offset)
        else overlaid
      (combined, (start_offset + timing_offset) / 1000)
  | .noOffset =>
    (sfx_audio ++ speech_audio, (start_offset + sfx_audio.length) / 1000)

/-- Two-digit zero padding, as in the `02d` / `05.2f` format directives. -/
def pad2 (n : ℕ) : String := if n < 10 then "0" ++ toString n else toString n

/-- `format_timestamp` (src/main.py:366-370): float seconds to `MM:SS.ss`.
`minutes = int(seconds // 60)`, `remainder = seconds % 60`; the two-decimal
rendering of the remainder is modelled by rounding to centiseconds. -/
def format_timestamp (seconds : ℚ) : String :=
  let minutes : ℤ := ⌊seconds / 60⌋
  let remainder_seconds : ℚ := seconds - 60 * minutes
  let centi : ℤ := ⌊remainder_seconds * 100 + 1 / 2⌋
  pad2 minutes.toNat ++ ":" ++ pad2 (centi.toNat / 100) ++ "." ++
    pad2 (centi.toNat % 100)

/-- Key of an SFX resource (`placeholder_to_key` / `AUDIO_FILES_ENV`,
src/main.py:49-63, 1539-1544): `INTRO`, `FIRST` (article start), `BREAK`
(article break), `OUTRO`. -/
inductive SfxKey where
  | INTRO | FIRST | BREAK | OUTRO
deriving DecidableEq

/-- The placeholder token of an SFX cue (src/main.py:43-46). -/
def placeholderToken : SfxKey → String
  | .INTRO => "[SFX: NEWS INTRO]"
  | .FIRST => "[SFX: ARTICLE START]"
  | .BREAK => "[SFX: ARTICLE BREAK]"
  | .OUTRO => "[SFX: NEWS OUTRO]"

/-- One entry of `script_sections` (src/main.py:1529-1532) after the
`section in placeholder_to_key` classification: either one of the four
placeholder tokens or a narration text fragment. -/
inductive Section where
  | placeholder (k : SfxKey) : Section
  | text (s : String) : Section
deriving DecidableEq

/-- The string content of a section (sections are strings in the source;
a placeholder section is its token). -/
def sectionString : Section → String
  | .placeholder k => placeholderToken k
  | .text s => s

/-- Per-run configuration read by the mixing loop: resolved SFX audio per
key (`audio_files.get(sfx_key, None)` after `check_audio_files`), configured
timing per key (`get_timing_value(TIMINGS_ENV...)`), and the synthesized
narration segments `vo_segments` in script order. -/
structure MixConfig where
  audioFiles : SfxKey → Option AudioSeg
  timings : SfxKey → Timing
  voSegments : List AudioSeg

/-- Mutable state of the mixing loop in `generate_news_audio`
(src/main.py:1537-1646).  `totalElapsed` is `total_elapsed_time` in seconds;
`timestamps` holds the seconds values passed to `format_timestamp`;
`articleStart` / `articleEnd` are in milliseconds. -/
structure MixState where
  finalAudio : AudioSeg
  totalElapsed : ℚ
  timestamps : List ℚ
  lyricsText : List String
  articleStart : Option ℚ
  articleEnd : Option ℚ
  speechSeg : ℕ
deriving DecidableEq

/-- The initial loop state (src/main.py:1537-1551, 1584). -/
def initMixState : MixState :=
  { finalAudio := [], totalElapsed := 0, timestamps := [], lyricsText := []
    articleStart := none, articleEnd := none, speechSeg := 0 }

/-- How the loop can abort: the explicit `ValueError` raised for an SFX
placeholder at the end without subsequent text (src/main.py:1626-1628), or
the `IndexError` from `vo_segments[current_speech_segment]` running past the
synthesized-segment list. -/
inductive MixError where
  | malformedScript | indexError
deriving DecidableEq

/-- The `while current_index < len(script_sections)` mixing loop of
`generate_news_audio` (src/main.py:1586-1646), with the remaining sections
as a list.  Each iteration handles one placeholder (with or without a
resolved SFX file) or one plain narration section, and always advances
`current_speech_segment` by one (line 1646). -/
def processSections (cfg : MixConfig) : List Section → MixState → Except MixError MixState
  | [], st => .ok st
  | sec :: rest, st =>
    match sec with
    | .placeholder sfxKey =>
      match cfg.audioFiles sfxKey with
      | some sfxAudio =>
        match rest with
        | next :: rest2 =>
          match cfg.voSegments.get? st.speechSeg with
          | some speechAudio =>
            let timingValue := cfg.timings sfxKey
            let mixed := generate_mixed_audio_and_track_timestamps
              sfxAudio speechAudio timingValue (st.totalElapsed * 1000)
            let articleEnd' :=
              if sfxKey = .OUTRO ∧ st.articleEnd = none then
                some (st.totalElapsed * 1000)
              else st.articleEnd
            let timingOffset : ℚ :=
              match timingValue with
              | .offset t => (t : ℚ)
              | .noOffset => 0
            let articleStart' :=
              if sfxKey = .FIRST ∧ st.articleStart = none then
                some (st.totalElapsed * 1000 + timingOffset)
              else st.articleStart
            processSections cfg rest2
              { finalAudio := st.finalAudio ++ mixed.1
                totalElapsed := st.totalElapsed + (mixed.1.length : ℚ) / 1000
                timestamps := st.timestamps ++ [mixed.2]
                lyricsText := st.lyricsText ++ [sectionString next]
                articleStart := articleStart'
                articleEnd := articleEnd'
                speechSeg := st.speechSeg + 1 }
          | none => .error .indexError
        | [] => .error .malformedScript
      | none =>
        processSections cfg rest { st with speechSeg := st.speechSeg + 1 }
    | .text t =>
      match cfg.voSegments.get? st.speechSeg with
      | some speechAudio =>
        let articleStart' :=
          if st.articleStart = none then some (st.totalElapsed * 1000)
          else st.articleStart
        let newTotal := st.totalElapsed + (speechAudio.length : ℚ) / 1000
        processSections cfg rest
          { finalAudio := st.finalAudio ++ speechAudio
            totalElapsed := newTotal
            timestamps := st.timestamps ++ [newTotal]
            lyricsText := st.lyricsText ++ [t]
            articleStart := articleStart'
            articleEnd := st.articleEnd
            speechSeg := st.speechSeg + 1 }
      | none => .error .indexError

/-!
## Speech-synthesis cache and provider loop

`cache_audio` / `get_cached_audio` (src/main.py:224-258) read and write
files named `<hash>.<format>` in the cache directory; the file system is
modelled as an association list from file name to byte content (a cached
write shadows any earlier file of the same name, as a file overwrite does).
`AudioSegment.from_file` decoding of the read bytes is the pydub
collaborator and is deterministic in the bytes, so byte-level identity is
what we state.
-/

/-- A file store: file name to byte content. -/
abbrev FileStore := List (String × List ℕ)

/-- `cache_audio` (src/main.py:224-234): write `data` to
`cache_dir / (hash_value ++ "." ++ output_format)`. -/
def cache_audio (hash_value : String) (data : List ℕ) (output_format : String)
    (fs : FileStore) : FileStore :=
  (hash_value ++ "." ++ output_format, data) :: fs

/-- `get_cached_audio` (src/main.py:237-258): read the bytes of
`cache_dir / (hash_value ++ "." ++ output_format)` if the file exists
(`none` models the cache miss). -/
def get_cached_audio (hash_value : String) (output_format : String)
    (fs : FileStore) : Option (List ℕ) :=
  fs.lookup (hash_value ++ "." ++ output_format)

/-- `audio_segment.apply_gain(-audio_segment.max_dBFS)`
(src/main.py:1138): peak normalization, modelled as a linear gain bringing
the peak sample magnitude to 1 (identity on silence). -/
def peakNormalize (a : AudioSeg) : AudioSeg :=
  let peak := (a.map abs).foldr max 0
  if peak = 0 then a else apply_gain (1 / peak) a

/-- `openai_segments_to_speech` (src/main.py:1102-1141): one provider
request per segment, in order, each decoded and peak-normalized.  The
provider is modelled as a function from text to decoded audio; the second
component is the log of provider invocations (one entry per
`openai_client.audio.speech.create` call, in order). -/
def openai_segments_to_speech (tts : String → AudioSeg) :
    List String → List AudioSeg × List String
  | [] => ([], [])
  | segment :: rest =>
    let normalized_audio := peakNormalize (tts segment)
    let r := openai_segments_to_speech tts rest
    (normalized_audio :: r.1, segment :: r.2)

/-!
## Music-bed compositor

The bed post-pass of `generate_news_audio` (src/main.py:1649-1678).  The
unbounded `while len(looped_bed_audio) < bed_duration` loop is modelled
with explicit fuel: `none` means the loop has not terminated within the
given number of iterations, so a result for *some* fuel is exactly
termination of the source loop.
-/

/-- The bed loop (src/main.py:1662-1665): concatenate copies of `bed` until
the accumulator's length reaches `bedDuration` (an integer, since
`article_end_time - article_start_time` may in principle be negative). -/
def loopBed (bed : AudioSeg) (bedDuration : ℤ) : ℕ → AudioSeg → Option AudioSeg
  | 0, acc => if (acc.length : ℤ) < bedDuration then none else some acc
  | fuel + 1, acc =>
    if (acc.length : ℤ) < bedDuration then
      loopBed bed bedDuration fuel (acc ++ bed)
    else some acc

/-- The looped, truncated, gain-adjusted and faded bed segment
(src/main.py:1661-1673): loop to at least `bedDuration`, truncate with
`[:bed_duration]`, apply gain, then the optional fades. -/
def bedSegment (bed : AudioSeg) (bedGain : ℚ) (bedFadein bedFadeout : ℕ)
    (bedDuration : ℤ) (fuel : ℕ) : Option AudioSeg :=
  (loopBed bed bedDuration fuel []).map fun looped =>
    let truncated := looped.take bedDuration.toNat
    let gained := apply_gain bedGain truncated
    let fadedIn := if bedFadein > 0 then fade_in bedFadein gained else gained
    if bedFadeout > 0 then fade_out bedFadeout fadedIn else fadedIn

/-- The full bed post-pass (src/main.py:1658-1678): compute
`adjusted_article_start_time = max(0, article_start_time + bed_offset)` and
overlay the bed segment onto the assembled timeline at that position. -/
def bedComposite (finalAudio bed : AudioSeg) (bedGain : ℚ)
    (bedFadein bedFadeout : ℕ) (bedOffset : ℤ)
    (articleStart articleEnd : ℕ) (fuel : ℕ) : Option AudioSeg :=
  let adjustedStart : ℕ := (max 0 ((articleStart : ℤ) + bedOffset)).toNat
  let bedDuration : ℤ := (articleEnd : ℤ) - (articleStart : ℤ)
  (bedSegment bed bedGain bedFadein bedFadeout bedDuration fuel).map fun seg =>
    overlay finalAudio seg adjustedStart

/-!
## Loudness-analysis front end (`src/replaygain/main.py`)

`calculate_replaygain` (lines 16-68) scans ffmpeg's stderr for the loudnorm
JSON block, then checks the measured values.  The line scan is embedded
directly; the measured values (after Python's `float(...)`) are modelled by
`PyFloat`, an IEEE-float classification sufficient for the `isnan` check
the source performs.
-/

/-- Python `str.strip()`: drop leading and trailing whitespace. -/
def strip (s : String) : String :=
  String.mk (((s.data.dropWhile Char.isWhitespace).reverse.dropWhile
    Char.isWhitespace).reverse)

/-- The JSON-block extraction loop of `calculate_replaygain`
(src/replaygain/main.py:44-53): accumulate stripped lines from a line equal
to `"\x7b"` through a line equal to `"\x7d"`. -/
def extractJsonLoop : List String → String → Bool → String
  | [], acc, _ => acc
  | l :: ls, acc, json_lines =>
    let line := strip l
    if line = "\x7b" then extractJsonLoop ls (acc ++ line) true
    else if json_lines then
      extractJsonLoop ls (acc ++ line) (if line = "\x7d" then false else true)
    else extractJsonLoop ls acc json_lines

/-- `json_output` as assembled from the decoded stderr lines
(src/replaygain/main.py:44-53). -/
def extractJson (errLines : List String) : String :=
  extractJsonLoop errLines "" false

/-- The `if not json_output: raise RuntimeError` step
(src/replaygain/main.py:55-57). -/
def extractJsonChecked (errLines : List String) : Except Unit String :=
  if extractJson errLines = "" then .error () else .ok (extractJson errLines)

/-- A Python float as classified by the checks in `calculate_replaygain`:
finite, NaN, or an infinity. -/
inductive PyFloat where
  | finite (q : ℚ) | nan | inf | ninf
deriving DecidableEq

/-- Python `math.isnan`. -/
def PyFloat.isnan : PyFloat → Bool
  | .nan => true
  | _ => false

/-- Finiteness of a float (used to state the claim; the source never tests
this). -/
def PyFloat.isFinite : PyFloat → Bool
  | .finite _ => true
  | _ => false

/-- The measured-value check of `calculate_replaygain`
(src/replaygain/main.py:61-68): `gain = float(parsed_data.get('input_i',
'nan'))`, `peak = float(parsed_data.get('input_tp', 'nan'))`, raise if
either `isnan`, else return them.  `parsedData` is the parsed JSON object
as a key-value list of already-converted floats. -/
def replaygainCheck (parsedData : List (String × PyFloat)) :
    Except Unit (PyFloat × PyFloat) :=
  let gain := (parsedData.lookup "input_i").getD .nan
  let peak := (parsedData.lookup "input_tp").getD .nan
  if gain.isnan || peak.isnan then .error () else .ok (gain, peak)

/-!
## Theorems
-->
-/

theorem generate_mixed_overlay_case (sfx speech : AudioSeg) (off : ℕ)
    (cursor : ℚ) (hoff : off ≤ sfx.length) :
    generate_mixed_audio_and_track_timestamps sfx speech (.offset off) cursor
      = (if off + speech.length > sfx.length then
           overlay sfx speech off ++ speech.drop (sfx.length - off)
         else overlay sfx speech off,
         (cursor + off) / 1000) := by
  simp only [generate_mixed_audio_and_track_timestamps, gt_iff_lt,
    not_lt.mpr hoff, if_false]

theorem generate_mixed_padding_case (sfx speech : AudioSeg) (off : ℕ)
    (cursor : ℚ) (hoff : sfx.length < off) :
    generate_mixed_audio_and_track_timestamps sfx speech (.offset off) cursor
      = (sfx ++ silent (off - sfx.length) ++ speech,
         (cursor + sfx.length + (off - sfx.length : ℕ)) / 1000) := by
  simp only [generate_mixed_audio_and_track_timestamps, gt_iff_lt, hoff, if_true]

/-- C1: for `0 ≤ offset ≤ sfxDur`, the mixer overlays the narration onto the
SFX clip at millisecond position `offset` (the first `sfxDur` ms of the
combined clip are the overlay), reports the narration start as the cursor
before the append plus `offset`, and the combined length is `sfxDur` when
`offset + speechDur ≤ sfxDur` and `offset + speechDur` otherwise (the
narration tail beyond `sfxDur - offset` is appended, so none of it is
lost). -/
theorem mixer_overlay_within_sfx (sfx speech : AudioSeg) (off : ℕ)
    (cursor : ℚ) (hoff : off ≤ sfx.length) :
    (generate_mixed_audio_and_track_timestamps sfx speech (.offset off) cursor).2 * 1000
        = cursor + off ∧
    (generate_mixed_audio_and_track_timestamps sfx speech (.offset off) cursor).1.length
        = (if off + speech.length ≤ sfx.length then sfx.length
           else off + speech.length) ∧
    (generate_mixed_audio_and_track_timestamps sfx speech (.offset off) cursor).1.take sfx.length
        = overlay sfx speech off := by
  rw [generate_mixed_overlay_case sfx speech off cursor hoff]
  refine ⟨by field_simp, ?_, ?_⟩
  · by_cases htail : off + speech.length > sfx.length
    · rw [if_pos htail, if_neg (not_le.mpr htail)]
      simp only [List.length_append, length_overlay, List.length_drop]
      omega
    · rw [if_neg htail, if_pos (not_lt.mp htail), length_overlay]
  · by_cases htail : off + speech.length > sfx.length
    · rw [if_pos htail]
      rw [show sfx.length = (overlay sfx speech off).length from
        (length_overlay sfx speech off).symm]
      exact List.take_left _ _
    · rw [if_neg htail]
      rw [show sfx.length = (overlay sfx speech off).length from
        (length_overlay sfx speech off).symm]
      exact List.take_length _

theorem mixer_overlay_within_sfx_witness :
    3 ≤ (silent 5 : AudioSeg).length ∧
    ((generate_mixed_audio_and_track_timestamps (silent 5) (silent 2)
        (.offset 3) 0).2 * 1000 = 0 + 3 ∧
      (generate_mixed_audio_and_track_timestamps (silent 5) (silent 2)
        (.offset 3) 0).1.length
        = (if 3 + (silent 2 : AudioSeg).length ≤ (silent 5 : AudioSeg).length
           then (silent 5 : AudioSeg).length
           else 3 + (silent 2 : AudioSeg).length) ∧
      (generate_mixed_audio_and_track_timestamps (silent 5) (silent 2)
        (.offset 3) 0).1.take (silent 5 : AudioSeg).length
        = overlay (silent 5) (silent 2) 3) :=
  ⟨by decide, mixer_overlay_within_sfx (silent 5) (silent 2) 3 0 (by decide)⟩

/-- C2: with the sentinel "no offset" the combined clip is `sfx ++ speech`
of length `sfxDur + speechDur` with narration starting `sfxDur` ms in; with
`offset > sfxDur` the combined clip is `sfx ++ silence(offset - sfxDur) ++
speech` of length `sfxDur + (offset - sfxDur) + speechDur` with narration
starting at `offset`; and the concrete 2000 ms SFX / 3000 ms speech /
offset 2500 scenario yields a 5500 ms clip with narration start 2500 ms,
formatted `"00:02.50"`. -/
theorem mixer_append_and_padding_cases :
    (∀ (sfx speech : AudioSeg) (cursor : ℚ),
      (generate_mixed_audio_and_track_timestamps sfx speech .noOffset cursor).1
          = sfx ++ speech ∧
      (generate_mixed_audio_and_track_timestamps sfx speech .noOffset cursor).1.length
          = sfx.length + speech.length ∧
      (generate_mixed_audio_and_track_timestamps sfx speech .noOffset cursor).2 * 1000
          = cursor + sfx.length) ∧
    (∀ (sfx speech : AudioSeg) (off : ℕ) (cursor : ℚ), sfx.length < off →
      (generate_mixed_audio_and_track_timestamps sfx speech (.offset off) cursor).1
          = sfx ++ silent (off - sfx.length) ++ speech ∧
      (generate_mixed_audio_and_track_timestamps sfx speech (.offset off) cursor).1.length
          = sfx.length + (off - sfx.length) + speech.length ∧
      (generate_mixed_audio_and_track_timestamps sfx speech (.offset off) cursor).2 * 1000
          = cursor + off) ∧
    ((generate_mixed_audio_and_track_timestamps (silent 2000) (silent 3000)
        (.offset 2500) 0).1.length = 5500 ∧
      (generate_mixed_audio_and_track_timestamps (silent 2000) (silent 3000)
        (.offset 2500) 0).2 * 1000 = 2500 ∧
      format_timestamp ((generate_mixed_audio_and_track_timestamps (silent 2000)
        (silent 3000) (.offset 2500) 0).2) = "00:02.50") := by
  have hnone : ∀ (sfx speech : AudioSeg) (cursor : ℚ),
      generate_mixed_audio_and_track_timestamps sfx speech .noOffset cursor
        = (sfx ++ speech, (cursor + sfx.length) / 1000) := fun _ _ _ => rfl
  refine ⟨?_, ?_, ?_⟩
  · intro sfx speech cursor
    rw [hnone]
    refine ⟨rfl, by simp, ?_⟩
    dsimp only
    field_simp
  · intro sfx speech off cursor hoff
    rw [generate_mixed_padding_case sfx speech off cursor hoff]
    refine ⟨rfl, by simp only [List.length_append, length_silent], ?_⟩
    have hcast : ((off - sfx.length : ℕ) : ℚ) = (off : ℚ) - sfx.length := by
      push_cast [Nat.cast_sub (le_of_lt hoff)]; ring
    dsimp only
    rw [hcast]
    field_simp
  · have hlt : (silent 2000 : AudioSeg).length < 2500 := by
      rw [length_silent]; norm_num
    have hcase := generate_mixed_padding_case (silent 2000) (silent 3000) 2500 0 hlt
    have hval : (generate_mixed_audio_and_track_timestamps (silent 2000)
        (silent 3000) (.offset 2500) 0).2 = 5 / 2 := by
      rw [hcase]
      simp only [length_silent]
      norm_num
    refine ⟨?_, by rw [hval]; norm_num, ?_⟩
    · rw [hcase]
      simp only [List.length_append, length_silent]
    · rw [hval]
      unfold format_timestamp
      norm_num
      decide

theorem mixer_append_and_padding_witness :
    (silent 1 : AudioSeg).length < 3 ∧
    ((generate_mixed_audio_and_track_timestamps (silent 1) (silent 2)
        (.offset 3) 0).1 = silent 1 ++ silent (3 - (silent 1 : AudioSeg).length) ++ silent 2 ∧
      (generate_mixed_audio_and_track_timestamps (silent 1) (silent 2)
        (.offset 3) 0).1.length
        = (silent 1 : AudioSeg).length + (3 - (silent 1 : AudioSeg).length)
            + (silent 2 : AudioSeg).length ∧
      (generate_mixed_audio_and_track_timestamps (silent 1) (silent 2)
        (.offset 3) 0).2 * 1000 = 0 + 3) :=
  ⟨by decide, mixer_append_and_padding_cases.2.1 (silent 1) (silent 2) 3 0 (by decide)⟩

theorem loopBed_some_reaches (bed : AudioSeg) (target : ℤ) :
    ∀ (fuel : ℕ) (acc looped : AudioSeg),
      loopBed bed target fuel acc = some looped → target ≤ looped.length := by
  intro fuel
  induction fuel with
  | zero =>
    intro acc looped h
    simp only [loopBed] at h
    split at h
    · exact absurd h (by simp)
    · cases h
      omega
  | succ n ih =>
    intro acc looped h
    simp only [loopBed] at h
    split at h
    · exact ih _ _ h
    · cases h
      omega

theorem loopBed_enough_fuel (bed : AudioSeg) (target : ℤ) (hbed : bed ≠ []) :
    ∀ (fuel : ℕ) (acc : AudioSeg), target ≤ (acc.length : ℤ) + fuel →
      ∃ looped, loopBed bed target fuel acc = some looped := by
  have hpos : 1 ≤ bed.length := List.length_pos.mpr hbed
  intro fuel
  induction fuel with
  | zero =>
    intro acc hacc
    refine ⟨acc, ?_⟩
    simp only [loopBed]
    rw [if_neg (by omega)]
  | succ n ih =>
    intro acc hacc
    by_cases hlt : (acc.length : ℤ) < target
    · obtain ⟨looped, hl⟩ := ih (acc ++ bed)
        (by simp only [List.length_append]; push_cast; omega)
      exact ⟨looped, by simp only [loopBed]; rw [if_pos hlt]; exact hl⟩
    · exact ⟨acc, by simp only [loopBed]; rw [if_neg hlt]⟩

theorem loopBed_empty_none (target : ℤ) :
    ∀ (fuel : ℕ) (acc : AudioSeg), (acc.length : ℤ) < target →
      loopBed [] target fuel acc = none := by
  intro fuel
  induction fuel with
  | zero =>
    intro acc hacc
    simp only [loopBed]
    rw [if_pos hacc]
  | succ n ih =>
    intro acc hacc
    simp only [loopBed]
    rw [if_pos hacc, List.append_nil]
    exact ih acc hacc

/-- C10: the bed-looping `while` loop terminates for every bed clip of
strictly positive duration — each iteration grows the buffer by the bed's
length, so some finite number of iterations (fuel) reaches any target
duration — and positivity is necessary: with a zero-length bed clip and a
positive target the loop never terminates (no amount of fuel yields a
result). -/
theorem bed_loop_terminates_iff_positive_bed :
    (∀ (bed : AudioSeg) (target : ℤ), bed ≠ [] →
      ∃ fuel looped, loopBed bed target fuel [] = some looped ∧
        target ≤ looped.length) ∧
    (∀ (bed : AudioSeg) (acc : AudioSeg), bed ≠ [] →
      acc.length < (acc ++ bed).length) ∧
    (∀ target : ℤ, 0 < target → ∀ fuel : ℕ,
      loopBed [] target fuel [] = none) := by
  refine ⟨?_, ?_, ?_⟩
  · intro bed target hbed
    obtain ⟨looped, hl⟩ := loopBed_enough_fuel bed target hbed target.toNat []
      (by simp)
    exact ⟨target.toNat, looped, hl, loopBed_some_reaches bed target _ [] looped hl⟩
  · intro bed acc hbed
    have := List.length_pos.mpr hbed
    simp only [List.length_append]
    omega
  · intro target htarget fuel
    exact loopBed_empty_none target fuel [] (by simpa using htarget)

theorem bed_loop_terminates_witness :
    ([(1 : ℚ)] ≠ ([] : AudioSeg) ∧
      ∃ fuel looped, loopBed [(1 : ℚ)] 3 fuel [] = some looped ∧
        (3 : ℤ) ≤ looped.length) ∧
    (0 < (3 : ℤ) ∧ loopBed [] 3 7 [] = none) :=
  ⟨⟨by simp, bed_loop_terminates_iff_positive_bed.1 [(1 : ℚ)] 3 (by simp)⟩,
    by norm_num, bed_loop_terminates_iff_positive_bed.2.2 3 (by norm_num) 7⟩

/-- C6: when a bed resource and both article boundaries are present, the bed
segment overlaid onto the final timeline has length exactly
`articleEnd - articleStart` no matter how many loop repetitions were needed,
it is overlaid starting at `max 0 (articleStart + bedOffset)`, and the
overlay leaves the total timeline length unchanged (it never extends it). -/
theorem bed_composite_exact_span (finalAudio bed : AudioSeg) (bedGain : ℚ)
    (bedFadein bedFadeout : ℕ) (bedOffset : ℤ)
    (articleStart articleEnd : ℕ) (fuel : ℕ) (looped : AudioSeg)
    (hspan : articleStart ≤ articleEnd)
    (hloop : loopBed bed ((articleEnd : ℤ) - (articleStart : ℤ)) fuel []
      = some looped) :
    ∃ seg,
      bedSegment bed bedGain bedFadein bedFadeout
          ((articleEnd : ℤ) - (articleStart : ℤ)) fuel = some seg ∧
      seg.length = articleEnd - articleStart ∧
      bedComposite finalAudio bed bedGain bedFadein bedFadeout bedOffset
          articleStart articleEnd fuel
        = some (overlay finalAudio seg
            ((max 0 ((articleStart : ℤ) + bedOffset)).toNat)) ∧
      (overlay finalAudio seg
          ((max 0 ((articleStart : ℤ) + bedOffset)).toNat)).length
        = finalAudio.length := by
  have hreach := loopBed_some_reaches bed _ fuel [] looped hloop
  refine ⟨_, by rw [bedSegment, hloop]; rfl, ?_, ?_, ?_⟩
  · dsimp only
    simp only [length_fade_out, length_fade_in, length_apply_gain,
      apply_ite List.length, List.length_take, ite_self]
    have htn : ((articleEnd : ℤ) - (articleStart : ℤ)).toNat
        = articleEnd - articleStart := by omega
    rw [htn]
    omega
  · rw [bedComposite, bedSegment, hloop]
    rfl
  · exact length_overlay _ _ _

theorem bed_composite_exact_span_witness :
    (2 ≤ 5 ∧
      loopBed [(1 : ℚ)] ((5 : ℕ) - ((2 : ℕ) : ℤ)) 5 [] = some [1, 1, 1]) ∧
    ∃ seg,
      bedSegment [(1 : ℚ)] 1 0 0 ((5 : ℕ) - ((2 : ℕ) : ℤ)) 5 = some seg ∧
      seg.length = 5 - 2 ∧
      bedComposite (silent 10) [(1 : ℚ)] 1 0 0 0 2 5 5
        = some (overlay (silent 10) seg ((max 0 (((2 : ℕ) : ℤ) + 0)).toNat)) ∧
      (overlay (silent 10) seg ((max 0 (((2 : ℕ) : ℤ) + 0)).toNat)).length
        = (silent 10 : AudioSeg).length :=
  ⟨⟨by norm_num, by decide⟩,
    bed_composite_exact_span (silent 10) [(1 : ℚ)] 1 0 0 0 2 5 5 [1, 1, 1]
      (by norm_num) (by decide)⟩

/-- The concatenation of the stripped lines of `body` onto `acc`, in order:
what the `json_output += line` accumulation of the extraction loop builds. -/
def appendTrims (acc : String) (body : List String) : String :=
  body.foldl (fun a l => a ++ strip l) acc

theorem extractJsonLoop_skip (rest : List String) (acc : String) :
    ∀ pre : List String, (∀ l ∈ pre, strip l ≠ "\x7b") →
      extractJsonLoop (pre ++ rest) acc false = extractJsonLoop rest acc false := by
  intro pre
  induction pre with
  | nil => intro _; rfl
  | cons l ls ih =>
    intro h
    have hl : strip l ≠ "\x7b" := h l (List.mem_cons_self l ls)
    simp only [List.cons_append, extractJsonLoop, if_neg hl]
    exact ih fun x hx => h x (List.mem_cons_of_mem l hx)

theorem extractJsonLoop_stops (acc : String) :
    ∀ post : List String, (∀ l ∈ post, strip l ≠ "\x7b") →
      extractJsonLoop post acc false = acc := by
  intro post
  induction post with
  | nil => intro _; rfl
  | cons l ls ih =>
    intro h
    have hl : strip l ≠ "\x7b" := h l (List.mem_cons_self l ls)
    simp only [extractJsonLoop, if_neg hl]
    exact ih fun x hx => h x (List.mem_cons_of_mem l hx)

theorem extractJsonLoop_body (rest : List String) :
    ∀ (body : List String) (acc : String),
      (∀ l ∈ body, strip l ≠ "\x7b" ∧ strip l ≠ "\x7d") →
      extractJsonLoop (body ++ rest) acc true
        = extractJsonLoop rest (appendTrims acc body) true := by
  intro body
  induction body with
  | nil => intro acc _; rfl
  | cons l ls ih =>
    intro acc h
    have hl := h l (List.mem_cons_self l ls)
    simp only [List.cons_append, extractJsonLoop, if_neg hl.1, if_neg hl.2,
      if_true]
    exact ih (acc ++ strip l) fun x hx => h x (List.mem_cons_of_mem l hx)

theorem extractJson_span (pre body post : List String) (a b : String)
    (ha : strip a = "\x7b") (hb : strip b = "\x7d")
    (hpre : ∀ l ∈ pre, strip l ≠ "\x7b")
    (hbody : ∀ l ∈ body, strip l ≠ "\x7b" ∧ strip l ≠ "\x7d")
    (hpost : ∀ l ∈ post, strip l ≠ "\x7b") :
    extractJson (pre ++ a :: (body ++ b :: post))
      = appendTrims "\x7b" body ++ "\x7d" := by
  unfold extractJson
  rw [extractJsonLoop_skip _ _ pre hpre]
  show extractJsonLoop (a :: (body ++ b :: post)) "" false = _
  simp only [extractJsonLoop, ha, if_pos rfl]
  rw [show ("" ++ "\x7b" : String) = "\x7b" from rfl]
  rw [extractJsonLoop_body _ body "\x7b" hbody]
  have hbne : ("\x7d" : String) ≠ "\x7b" := by decide
  show extractJsonLoop (b :: post) (appendTrims "\x7b" body) true = _
  simp only [extractJsonLoop, hb, if_neg hbne, if_pos rfl]
  exact extractJsonLoop_stops _ post hpost

/-- C8 counterexample: an infinite measured loudness is non-finite but is
*not* rejected — `calculate_replaygain` only tests `isnan`, so a parsed
`input_i` of `-inf` flows through as a successful measurement instead of
aborting the run. -/
theorem loudness_nonfinite_not_fatal :
    PyFloat.isFinite .ninf = false ∧
    replaygainCheck [("input_i", .ninf), ("input_tp", .finite 0)]
      = .ok (.ninf, .finite 0) := by
  exact ⟨rfl, rfl⟩

/-- C8 (amended): the loudness analysis extracts the single JSON object
delimited by a stripped line `"\x7b"` and a stripped line `"\x7d"`
(everything outside that span is ignored); an empty extraction aborts with
the fatal parse error; and the measured-value check aborts exactly when the
measured integrated loudness or true peak is NaN (infinite values are not
rejected). -/
theorem loudness_analysis_amended :
    (∀ (pre body post : List String) (a b : String),
      strip a = "\x7b" → strip b = "\x7d" →
      (∀ l ∈ pre, strip l ≠ "\x7b") →
      (∀ l ∈ body, strip l ≠ "\x7b" ∧ strip l ≠ "\x7d") →
      (∀ l ∈ post, strip l ≠ "\x7b") →
      extractJson (pre ++ a :: (body ++ b :: post))
        = appendTrims "\x7b" body ++ "\x7d") ∧
    (∀ errLines : List String, extractJson errLines = "" →
      extractJsonChecked errLines = .error ()) ∧
    (∀ parsedData : List (String × PyFloat),
      replaygainCheck parsedData = .error () ↔
        (((parsedData.lookup "input_i").getD .nan).isnan
          || ((parsedData.lookup "input_tp").getD .nan).isnan) = true) := by
  refine ⟨extractJson_span, ?_, ?_⟩
  · intro errLines h
    unfold extractJsonChecked
    rw [if_pos h]
  · intro parsedData
    by_cases hg : (((parsedData.lookup "input_i").getD PyFloat.nan).isnan
        || ((parsedData.lookup "input_tp").getD PyFloat.nan).isnan) = true
    · simp [replaygainCheck, hg]
    · simp [replaygainCheck, hg]

theorem loudness_analysis_witness :
    (strip "\x7b" = "\x7b" ∧ strip "\x7d" = "\x7d" ∧
      (∀ l ∈ ["noise"], strip l ≠ "\x7b") ∧
      (∀ l ∈ [" x "], strip l ≠ "\x7b" ∧ strip l ≠ "\x7d") ∧
      (∀ l ∈ ["end"], strip l ≠ "\x7b")) ∧
    extractJson (["noise"] ++ "\x7b" :: ([" x "] ++ "\x7d" :: ["end"]))
      = appendTrims "\x7b" [" x "] ++ "\x7d" :=
  ⟨⟨by decide, by decide, by decide, by decide, by decide⟩,
    loudness_analysis_amended.1 ["noise"] [" x "] ["end"] "\x7b" "\x7d"
      (by decide) (by decide) (by decide) (by decide) (by decide)⟩

/-- C5 counterexample: two narration sections with identical text trigger
two provider invocations — the synthesis loop of
`openai_segments_to_speech` issues one request per segment and never
consults the cache, so the provider is not invoked "at most once" per
distinct text. -/
theorem synthesis_cache_counterexample :
    (openai_segments_to_speech (fun _ => [(0 : ℚ)]) ["a", "a"]).2 = ["a", "a"] ∧
    (openai_segments_to_speech (fun _ => [(0 : ℚ)]) ["a", "a"]).2.length = 2 := by
  exact ⟨rfl, rfl⟩

/-- C5 (amended): the synthesis path never consults the cache — the
provider is invoked exactly once per narration section, in script order,
duplicate texts included; separately, the cache primitives themselves are
content-addressed and immutable: a lookup of a hash/format pair directly
after a store returns exactly the stored bytes. -/
theorem synthesis_cache_amended :
    (∀ (tts : String → AudioSeg) (segments : List String),
      (openai_segments_to_speech tts segments).2 = segments) ∧
    (∀ (hash_value output_format : String) (data : List ℕ) (fs : FileStore),
      get_cached_audio hash_value output_format
          (cache_audio hash_value data output_format fs) = some data) := by
  constructor
  · intro tts segments
    induction segments with
    | nil => rfl
    | cons s rest ih => simp only [openai_segments_to_speech, ih]
  · intro hash_value output_format data fs
    simp [get_cached_audio, cache_audio, List.lookup]

/-- C4 counterexample: a cue immediately followed by another cue does not
abort with the malformed-script error — the pairing branch consumes the
second cue as the pair's narration text, and the run instead fails with the
out-of-range access on the synthesized-segment list. -/
theorem cue_pair_counterexample :
    processSections ⟨fun _ => some [(0 : ℚ)], fun _ => .noOffset, []⟩
        [.placeholder .INTRO, .placeholder .OUTRO] initMixState
      = .error .indexError ∧
    (Except.error MixError.indexError : Except MixError MixState)
      ≠ .error .malformedScript := by
  refine ⟨?_, by simp⟩
  simp [processSections, initMixState]

/-- C4 (amended): a cue as the final section whose SFX resource resolves
aborts with the fatal malformed-script error (`ValueError`, "SFX
placeholder found at the end without subsequent text") before any output is
produced; but a cue immediately followed by another cue is not detected as
malformed — the second cue is consumed as narration text and the run aborts
with an index error instead. -/
theorem cue_handling_amended :
    (∀ (cfg : MixConfig) (k : SfxKey) (sfx : AudioSeg) (st : MixState),
      cfg.audioFiles k = some sfx →
      processSections cfg [.placeholder k] st = .error .malformedScript) ∧
    processSections ⟨fun _ => some [(0 : ℚ)], fun _ => .noOffset, []⟩
        [.placeholder .INTRO, .placeholder .OUTRO] initMixState
      = .error .indexError := by
  constructor
  · intro cfg k sfx st h
    simp [processSections, h]
  · simp [processSections, initMixState]

theorem cue_handling_witness :
    ((⟨fun _ => some [(0 : ℚ)], fun _ => .noOffset, []⟩ : MixConfig).audioFiles
        SfxKey.INTRO = some [(0 : ℚ)]) ∧
    processSections ⟨fun _ => some [(0 : ℚ)], fun _ => .noOffset, []⟩
        [.placeholder .INTRO] initMixState = .error .malformedScript :=
  ⟨rfl, cue_handling_amended.1 _ .INTRO [(0 : ℚ)] initMixState rfl⟩

/-- C9: evaluation at the failing input.  A cue whose SFX resource is
missing is skipped with a warning, but `current_speech_segment` is still
advanced (src/main.py:1646), so the following narration section reads past
the synthesized-segment list and the run aborts with an index error instead
of mixing the remaining narration as if the cue were absent. -/
theorem skipped_cue_breaks_alignment :
    processSections ⟨fun _ => none, fun _ => .noOffset, [[(0 : ℚ)]]⟩
        [.placeholder .INTRO, .text "Hello"] initMixState
      = .error .indexError := by
  simp [processSections, initMixState]

/-- C7: evaluation at the failing input.  A single plain narration section
of 1 ms starting at cursor 0 gets the lyrics timestamp `1/1000` s — the
cursor *after* the append (`total_elapsed_time` is updated before
`timestamps.append` on the plain-narration path, src/main.py:1640-1643) —
not its start position `0`, unlike the cue-paired path which records the
pre-append cursor plus the narration offset. -/
theorem plain_narration_records_end :
    processSections ⟨fun _ => none, fun _ => .noOffset, [[(0 : ℚ)]]⟩
        [.text "Hello"] initMixState
      = .ok { finalAudio := [(0 : ℚ)], totalElapsed := 1 / 1000,
              timestamps := [1 / 1000], lyricsText := ["Hello"],
              articleStart := some 0, articleEnd := none, speechSeg := 1 } ∧
    (1 / 1000 : ℚ) ≠ 0 := by
  constructor
  · simp [processSections, initMixState]
  · norm_num

/-- The narration start reported by the mixer is the caller's cursor plus a
non-negative millisecond offset that never exceeds the combined clip's
length. -/
theorem generate_mixed_narr (sfx speech : AudioSeg) (t : Timing) (c : ℚ) :
    ∃ narr : ℕ,
      (generate_mixed_audio_and_track_timestamps sfx speech t c).2
        = (c + narr) / 1000 ∧
      narr ≤ (generate_mixed_audio_and_track_timestamps sfx speech t c).1.length := by
  cases t with
  | noOffset =>
    refine ⟨sfx.length, rfl, ?_⟩
    show sfx.length ≤ (sfx ++ speech).length
    simp only [List.length_append]
    omega
  | offset off =>
    by_cases hgt : off > sfx.length
    · rw [generate_mixed_padding_case _ _ _ _ hgt]
      refine ⟨sfx.length + (off - sfx.length), ?_,
        by simp only [List.length_append, length_silent]; omega⟩
      push_cast
      ring_nf
    · rw [generate_mixed_overlay_case _ _ _ _ (not_lt.mp hgt)]
      refine ⟨off, rfl, ?_⟩
      split
      · simp only [List.length_append, length_overlay]
        omega
      · rw [length_overlay]
        omega

theorem div1000_nonneg (n : ℕ) : 0 ≤ (n : ℚ) / 1000 := by positivity

theorem cursor_step_le (c : ℚ) (n : ℕ) : c ≤ c + (n : ℚ) / 1000 :=
  le_add_of_nonneg_right (div1000_nonneg n)

theorem narr_entry_lo (c : ℚ) (n : ℕ) : c ≤ (c * 1000 + n) / 1000 := by
  rw [show (c * 1000 + (n : ℚ)) / 1000 = c + (n : ℚ) / 1000 by ring]
  exact cursor_step_le c n

theorem narr_entry_hi (c : ℚ) (n L : ℕ) (h : n ≤ L) :
    (c * 1000 + n) / 1000 ≤ c + (L : ℚ) / 1000 := by
  rw [show (c * 1000 + (n : ℚ)) / 1000 = c + (n : ℚ) / 1000 by ring]
  refine add_le_add_left ?_ c
  exact (div_le_div_iff_of_pos_right (by norm_num : (0 : ℚ) < 1000)).mpr (by exact_mod_cast h)

/-- Invariant of the mixing loop: the lyrics timestamps are sorted and all
bounded by the current cursor. -/
def TimestampsOK (st : MixState) : Prop :=
  st.timestamps.Chain' (· ≤ ·) ∧ ∀ t ∈ st.timestamps, t ≤ st.totalElapsed

theorem timestampsOK_append {ts : List ℚ} {total e newTotal : ℚ}
    (hchain : ts.Chain' (· ≤ ·)) (hbound : ∀ t ∈ ts, t ≤ total)
    (hlo : total ≤ e) (hhi : e ≤ newTotal) (htot : total ≤ newTotal) :
    (ts ++ [e]).Chain' (· ≤ ·) ∧ ∀ t ∈ ts ++ [e], t ≤ newTotal := by
  constructor
  · rw [List.chain'_append]
    refine ⟨hchain, List.chain'_singleton e, ?_⟩
    intro x hx y hy
    simp only [List.head?_cons, Option.mem_def, Option.some.injEq] at hy
    subst hy
    obtain ⟨hne, rfl⟩ := List.mem_getLast?_eq_getLast hx
    exact le_trans (hbound _ (List.getLast_mem hne)) hlo
  · intro t ht
    rcases List.mem_append.mp ht with h | h
    · exact le_trans (hbound t h) htot
    · rw [List.mem_singleton.mp h]
      exact hhi

theorem processSections_ok_invariant (cfg : MixConfig)
    (sections : List Section) (st : MixState) :
    ∀ st', processSections cfg sections st = .ok st' → TimestampsOK st →
      st.totalElapsed ≤ st'.totalElapsed ∧ TimestampsOK st' := by
  induction sections, st using processSections.induct cfg
  case case1 st =>
    intro st' h hok
    cases h
    exact ⟨le_refl _, hok⟩
  case case2 st k sfxAudio hsfx next rest2 speechAudio hvo timingValue mixed
      articleEndV timingOffsetV articleStartV ih =>
    intro st' h hok
    simp only [processSections, hsfx, hvo] at h
    obtain ⟨narr, hnarr, hle⟩ := generate_mixed_narr sfxAudio speechAudio
      (cfg.timings k) (st.totalElapsed * 1000)
    have hlo := narr_entry_lo st.totalElapsed narr
    have hhi := narr_entry_hi st.totalElapsed narr _ hle
    rw [← hnarr] at hlo hhi
    have hstep := timestampsOK_append hok.1 hok.2 hlo hhi
      (cursor_step_le st.totalElapsed _)
    obtain ⟨htot', hok'⟩ := ih st' h ⟨hstep.1, hstep.2⟩
    exact ⟨le_trans (cursor_step_le _ _) htot', hok'⟩
  case case3 st k sfxAudio hsfx next rest2 hvo =>
    intro st' h hok
    simp only [processSections, hsfx, hvo] at h
    exact Except.noConfusion h
  case case4 st k sfxAudio hsfx =>
    intro st' h hok
    simp only [processSections, hsfx] at h
    exact Except.noConfusion h
  case case5 rest st k hsfx ih =>
    intro st' h hok
    simp only [processSections, hsfx] at h
    exact ih st' h hok
  case case6 rest st s speechAudio hvo articleStartV newTotalV ih =>
    intro st' h hok
    simp only [processSections, hvo] at h
    have hstep := timestampsOK_append hok.1 hok.2
      (cursor_step_le st.totalElapsed speechAudio.length)
      (le_refl (st.totalElapsed + (speechAudio.length : ℚ) / 1000))
      (cursor_step_le st.totalElapsed speechAudio.length)
    obtain ⟨htot', hok'⟩ := ih st' h ⟨hstep.1, hstep.2⟩
    exact ⟨le_trans (cursor_step_le _ _) htot', hok'⟩
  case case7 rest st s hvo =>
    intro st' h hok
    simp only [processSections, hvo] at h
    exact Except.noConfusion h

/-- C3: for any run of the mixing loop that completes, the timeline cursor
is monotonically non-decreasing across the whole run (it can only grow from
any intermediate state to the final one), and the sequence of lyrics
timestamps appended — for cue-paired and plain narration alike — is
monotonically non-decreasing. -/
theorem timeline_monotone (cfg : MixConfig) (sections : List Section)
    (st st' : MixState) (h : processSections cfg sections st = .ok st')
    (hok : TimestampsOK st) :
    st.totalElapsed ≤ st'.totalElapsed ∧
      st'.timestamps.Chain' (· ≤ ·) :=
  ⟨(processSections_ok_invariant cfg sections st st' h hok).1,
    (processSections_ok_invariant cfg sections st st' h hok).2.1⟩

theorem timeline_monotone_witness :
    initMixState.totalElapsed
        ≤ (MixState.mk [(0 : ℚ)] (1 / 1000) [1 / 1000] ["a"] (some 0) none 1).totalElapsed ∧
      (MixState.mk [(0 : ℚ)] (1 / 1000) [1 / 1000] ["a"] (some 0) none 1).timestamps.Chain'
        (· ≤ ·) :=
  timeline_monotone ⟨fun _ => none, fun _ => .noOffset, [[(0 : ℚ)]]⟩
    [.text "a"] initMixState _
    (by simp [processSections, initMixState])
    ⟨List.chain'_nil, by simp [initMixState]⟩

end NewsBreak
